import Mathlib

/-!
Verification development for the newapi-go Claude proxy.

This file shallowly embeds the parts of the repository that the checked
properties are about:

* `proxy/converter/claude_to_newapi.go` — request validation, message and
  option conversion, model-alias resolution (`mapModel`);
* `proxy/converter/newapi_to_claude.go` — response conversion, the stop-reason
  table, stream-event construction (`ConvertStreamChunk`,
  `GenerateStreamEvents`, `GenerateStreamEndEvents`, `createErrorEvent`);
* `proxy/server/handlers.go` — the streaming pipeline `handleStreamMessage`
  and `sendStreamError`;
* the SDK transport (`HTTPClient.doWithRetry`, `DefaultRetryPolicy`) and SSE
  stream reading (`StreamProcessor`, `JSONStreamReader.Read`).

Modelling conventions.  Go strings are modelled as Lean `String` where the
code only compares them, and as `List Nat` of Unicode code points where the
code lowercases and searches substrings (`mapModel`); lowercasing is the
ASCII mapping, which agrees with Go's `strings.ToLower` on the ASCII model
identifiers the alias table holds.  Go `float64` sampling parameters are
modelled as `Rat`: the code only ever compares them against constants, never
computes with them.  JSON marshalling of event payloads is elided: stream
events are modelled structurally.  Go map iteration over the alias table is
nondeterministic; the model fixes the source-listing order, and theorems
about the fuzzy-match branch only use that the returned value belongs to
some matching entry.
-/

namespace NewapiGo

/-! ## Code-point strings, ASCII lowercasing, substring search

These model the `strings.ToLower` and `strings.Contains` calls in
`ClaudeToNewAPIConverter.mapModel` (proxy/converter/claude_to_newapi.go).
-/

/-- A Go string viewed as its sequence of Unicode code points. -/
def strChars (s : String) : List Nat :=
  s.data.map Char.toNat

/-- ASCII lowercasing of one code point, as `unicode.ToLower` acts on the
ASCII range used by the alias table. -/
def lowerChar (c : Nat) : Nat :=
  if 65 ≤ c ∧ c ≤ 90 then c + 32 else c

/-- Go `strings.ToLower` on the ASCII fragment: lowercase every code point. -/
def lowerStr (s : List Nat) : List Nat :=
  s.map lowerChar

/-- Whether `pat` occurs at the beginning of `s`. -/
def beginsWith {α : Type} [DecidableEq α] : List α → List α → Bool
  | _, [] => true
  | [], _ :: _ => false
  | a :: as, b :: bs => a = b && beginsWith as bs

/-- Go `strings.Contains s pat`: `pat` occurs somewhere inside `s`. -/
def containsSub : List Nat → List Nat → Bool
  | [], pat => beginsWith [] pat
  | s@(_ :: rest), pat => beginsWith s pat || containsSub rest pat

theorem beginsWith_refl {α : Type} [DecidableEq α] (s : List α) : beginsWith s s = true := by
  induction s with
  | nil => rfl
  | cons a as ih => simp [beginsWith, ih]

theorem containsSub_refl (s : List Nat) : containsSub s s = true := by
  cases s with
  | nil => rfl
  | cons a as => simp [containsSub, beginsWith_refl]

theorem lowerChar_idem (c : Nat) : lowerChar (lowerChar c) = lowerChar c := by
  by_cases h : 65 ≤ c ∧ c ≤ 90
  · have h' : ¬ (65 ≤ c + 32 ∧ c + 32 ≤ 90) := by omega
    simp only [lowerChar, if_pos h, if_neg h']
  · simp [lowerChar, h]

theorem lowerStr_idem (s : List Nat) : lowerStr (lowerStr s) = lowerStr s := by
  unfold lowerStr
  rw [List.map_map]
  apply List.map_congr_left
  intro c _
  exact lowerChar_idem c

/-! ## The model alias table and `mapModel`

From `getModelMapping` and `ClaudeToNewAPIConverter.mapModel`
(proxy/converter/claude_to_newapi.go:26-47,198-214).
-/

/-- The alias table of `getModelMapping`, in source-listing order. -/
def modelMapping : List (List Nat × List Nat) :=
  [ (strChars "claude-3-opus-20240229",     strChars "claude-3-opus-20240229"),
    (strChars "claude-3-sonnet-20240229",   strChars "claude-3-sonnet-20240229"),
    (strChars "claude-3-haiku-20240307",    strChars "claude-3-haiku-20240307"),
    (strChars "claude-3-5-sonnet-20241022", strChars "claude-3-5-sonnet-20241022"),
    (strChars "claude-3-5-haiku-20241022",  strChars "claude-3-5-haiku-20241022"),
    (strChars "claude-3-opus",     strChars "claude-3-opus-20240229"),
    (strChars "claude-3-sonnet",   strChars "claude-3-sonnet-20240229"),
    (strChars "claude-3-haiku",    strChars "claude-3-haiku-20240307"),
    (strChars "claude-3.5-sonnet", strChars "claude-3-5-sonnet-20241022"),
    (strChars "claude-3.5-haiku",  strChars "claude-3-5-haiku-20241022"),
    (strChars "opus",   strChars "claude-3-opus-20240229"),
    (strChars "sonnet", strChars "claude-3-sonnet-20240229"),
    (strChars "haiku",  strChars "claude-3-haiku-20240307") ]

/-- Exact (case-sensitive) lookup, modelling the Go map read
`c.modelMapping[claudeModel]`. -/
def lookupExact : List (List Nat × List Nat) → List Nat → Option (List Nat)
  | [], _ => none
  | (k, v) :: rest, s => if k = s then some v else lookupExact rest s

/-- The fuzzy-match loop of `mapModel`: the first entry whose lowercased key
occurs inside the (already lowercased) input. -/
def findSubstr : List (List Nat × List Nat) → List Nat → Option (List Nat)
  | [], _ => none
  | (k, v) :: rest, ls => if containsSub ls (lowerStr k) then some v else findSubstr rest ls

/-- Model of `ClaudeToNewAPIConverter.mapModel`: exact lookup first; otherwise lowercase
the input and scan for a key contained in it; otherwise return the
(lowercased) input. -/
def mapModel (claudeModel : List Nat) : List Nat :=
  match lookupExact modelMapping claudeModel with
  | some mapped => mapped
  | none =>
    let lowered := lowerStr claudeModel
    match findSubstr modelMapping lowered with
    | some mapped => mapped
    | none => lowered

theorem lookupExact_mem {m : List (List Nat × List Nat)} {s v : List Nat}
    (h : lookupExact m s = some v) : (s, v) ∈ m := by
  induction m with
  | nil => simp [lookupExact] at h
  | cons p rest ih =>
    obtain ⟨k, w⟩ := p
    simp only [lookupExact] at h
    by_cases hk : k = s
    · rw [if_pos hk] at h
      cases h
      subst hk
      exact List.mem_cons_self _ _
    · rw [if_neg hk] at h
      exact List.mem_cons_of_mem _ (ih h)

theorem findSubstr_mem {m : List (List Nat × List Nat)} {ls v : List Nat}
    (h : findSubstr m ls = some v) :
    ∃ k, (k, v) ∈ m ∧ containsSub ls (lowerStr k) = true := by
  induction m with
  | nil => simp [findSubstr] at h
  | cons p rest ih =>
    obtain ⟨k, w⟩ := p
    simp only [findSubstr] at h
    by_cases hk : containsSub ls (lowerStr k) = true
    · rw [if_pos hk] at h
      cases h
      exact ⟨k, List.mem_cons_self _ _, hk⟩
    · rw [if_neg hk] at h
      obtain ⟨k', hmem, hc⟩ := ih h
      exact ⟨k', List.mem_cons_of_mem _ hmem, hc⟩

theorem findSubstr_none {m : List (List Nat × List Nat)} {ls : List Nat}
    (h : findSubstr m ls = none) :
    ∀ k v, (k, v) ∈ m → containsSub ls (lowerStr k) = false := by
  induction m with
  | nil => intro k v hm; simp at hm
  | cons p rest ih =>
    obtain ⟨k0, w0⟩ := p
    simp only [findSubstr] at h
    by_cases hk : containsSub ls (lowerStr k0) = true
    · rw [if_pos hk] at h; cases h
    · rw [if_neg hk] at h
      intro k v hm
      rcases List.mem_cons.1 hm with heq | hrest
      · cases heq
        simpa using hk
      · exact ih h k v hrest

/-- Every value of the alias table is itself a key mapped to itself
(the five dated canonical identifiers head the table). -/
theorem modelMapping_value_self :
    ∀ p ∈ modelMapping, lookupExact modelMapping p.2 = some p.2 := by decide

/-- Every key of the alias table is already lowercase. -/
theorem modelMapping_key_lower :
    ∀ p ∈ modelMapping, lowerStr p.1 = p.1 := by decide

theorem mapModel_of_value {v : List Nat}
    (h : lookupExact modelMapping v = some v) : mapModel v = v := by
  unfold mapModel
  rw [h]

/-- C6 — model-alias resolution is idempotent: `mapModel (mapModel s) = mapModel s`
for every input, and every canonical id in the table's range resolves to
itself.  (Source: `ClaudeToNewAPIConverter.mapModel` and `getModelMapping`,
proxy/converter/claude_to_newapi.go:26-47,198-214.) -/
theorem mapModel_idempotent :
    (∀ s : List Nat, mapModel (mapModel s) = mapModel s)
    ∧ (∀ v : List Nat, v ∈ modelMapping.map Prod.snd → mapModel v = v) := by
  have hvalue : ∀ v : List Nat, v ∈ modelMapping.map Prod.snd → mapModel v = v := by
    intro v hv
    obtain ⟨p, hp, hpv⟩ := List.mem_map.1 hv
    subst hpv
    exact mapModel_of_value (modelMapping_value_self p hp)
  refine ⟨?_, hvalue⟩
  intro s
  unfold mapModel
  cases hex : lookupExact modelMapping s with
  | some v =>
    have hmem : (s, v) ∈ modelMapping := lookupExact_mem hex
    have : lookupExact modelMapping v = some v := modelMapping_value_self (s, v) hmem
    simp only [this]
  | none =>
    simp only
    cases hfs : findSubstr modelMapping (lowerStr s) with
    | some v =>
      obtain ⟨k, hmem, _⟩ := findSubstr_mem hfs
      have : lookupExact modelMapping v = some v := modelMapping_value_self (k, v) hmem
      simp only [this]
    | none =>
      simp only
      have hnolookup : lookupExact modelMapping (lowerStr s) = none := by
        cases hl : lookupExact modelMapping (lowerStr s) with
        | none => rfl
        | some v =>
          exfalso
          have hmem : (lowerStr s, v) ∈ modelMapping := lookupExact_mem hl
          have hflat : containsSub (lowerStr s) (lowerStr (lowerStr s)) = false :=
            findSubstr_none hfs (lowerStr s) v hmem
          rw [lowerStr_idem, containsSub_refl] at hflat
          exact Bool.true_eq_false.mp hflat
      rw [hnolookup]
      simp only [lowerStr_idem, hfs]

/-- Witness for C6 at concrete inputs. -/
theorem mapModel_idempotent_witness :
    mapModel (mapModel (strChars "Sonnet-Test")) = mapModel (strChars "Sonnet-Test")
    ∧ mapModel (strChars "claude-3-opus-20240229") = strChars "claude-3-opus-20240229" :=
  ⟨mapModel_idempotent.1 _, mapModel_idempotent.2 _ (by decide)⟩

/-- C5 counterexample — the claim says an input with no exact and no substring
match "resolves to itself", but `mapModel` lowercases before the fuzzy scan
and returns the lowercased form: "GPT-X" resolves to "gpt-x", not to
"GPT-X". -/
theorem mapModel_passthrough_lowercases :
    lookupExact modelMapping (strChars "GPT-X") = none
    ∧ findSubstr modelMapping (lowerStr (strChars "GPT-X")) = none
    ∧ mapModel (strChars "GPT-X") = strChars "gpt-x"
    ∧ strChars "gpt-x" ≠ strChars "GPT-X" := by decide

/-- C5 (amended) — `mapModel` returns the exact-match entry when one exists;
otherwise, when the lowercased input contains some table key, it returns that
entry's canonical id; otherwise it returns the *lowercased* input (so the
already-lowercase "gpt-unknown-9000" resolves to itself). -/
theorem mapModel_resolution :
    (∀ s v : List Nat, lookupExact modelMapping s = some v → mapModel s = v)
    ∧ (∀ s : List Nat, lookupExact modelMapping s = none →
        (∀ v, findSubstr modelMapping (lowerStr s) = some v →
          mapModel s = v
          ∧ ∃ k, (k, v) ∈ modelMapping ∧ containsSub (lowerStr s) (lowerStr k) = true)
        ∧ (findSubstr modelMapping (lowerStr s) = none → mapModel s = lowerStr s))
    ∧ mapModel (strChars "gpt-unknown-9000") = strChars "gpt-unknown-9000" := by
  refine ⟨?_, ?_, by decide⟩
  · intro s v h
    unfold mapModel
    rw [h]
  · intro s hnone
    constructor
    · intro v hfs
      constructor
      · unfold mapModel
        rw [hnone]
        simp only [hfs]
      · exact findSubstr_mem hfs
    · intro hfs
      unfold mapModel
      rw [hnone]
      simp only [hfs]

/-- Witness for C5 (amended) at a concrete input: the alias "haiku" resolves
through the exact-match branch to the configured canonical id. -/
theorem mapModel_resolution_witness :
    mapModel (strChars "haiku") = strChars "claude-3-haiku-20240307" :=
  mapModel_resolution.1 (strChars "haiku") (strChars "claude-3-haiku-20240307") (by decide)

/-! ## Claude-protocol data model (proxy/types/claude.go) -/

/-- Model of `Image` — inline image source. -/
structure Image where
  type : String
  mediaType : String
  imageData : String
  deriving DecidableEq

/-- Model of `ContentItem` — one Claude content block. -/
structure ContentItem where
  type : String
  text : String
  source : Option Image
  imageURL : String
  deriving DecidableEq

/-- Model of `ClaudeMessage`. -/
structure ClaudeMessage where
  role : String
  content : List ContentItem
  deriving DecidableEq

/-- Model of `ClaudeRequest`.  `float64` sampling parameters modelled as `Rat`. -/
structure ClaudeRequest where
  model : String
  maxTokens : Int
  messages : List ClaudeMessage
  system : String
  temperature : Rat
  topP : Rat
  topK : Int
  stopSequences : List String
  stream : Bool
  deriving DecidableEq

/-- Model of `ErrorDetail` of the Claude error envelope. -/
structure ErrorDetail where
  type : String
  message : String
  deriving DecidableEq

/-- Model of `ClaudeError` — the typed error envelope. -/
structure ClaudeError where
  type : String
  errorDetail : ErrorDetail
  deriving DecidableEq

/-- Model of `NewClaudeError`. -/
def NewClaudeError (errorType message : String) : ClaudeError :=
  { type := "error", errorDetail := { type := errorType, message := message } }

/-- Model of `NewInvalidRequestError`. -/
def NewInvalidRequestError (message : String) : ClaudeError :=
  NewClaudeError "invalid_request_error" message

/-- Model of `NewAuthenticationError`. -/
def NewAuthenticationError (message : String) : ClaudeError :=
  NewClaudeError "authentication_error" message

/-- Model of `NewAPIError`. -/
def NewAPIError (message : String) : ClaudeError :=
  NewClaudeError "api_error" message

/-- Model of `NewRateLimitError`. -/
def NewRateLimitError (message : String) : ClaudeError :=
  NewClaudeError "rate_limit_error" message

/-! ## SDK chat data model (types/chat.go of the SDK) -/

/-- Model of `types.MessageContent` — one backend content element. -/
structure MessageContent where
  type : String
  text : String
  imageURL : String
  deriving DecidableEq

/-- The dynamic (`interface\x7b\x7d`) content of `types.ChatMessage`: a plain
string, a content array, or anything else. -/
inductive ChatContent where
  | ofString (s : String)
  | ofList (items : List MessageContent)
  | other
  deriving DecidableEq

/-- Model of `types.ChatMessage` (fields not touched by the proxy omitted). -/
structure ChatMessage where
  role : String
  content : ChatContent
  deriving DecidableEq

/-- Model of `types.ChatMessage.GetTextContent`: a string content verbatim, else the
first `text`-typed element of a content array, else the empty string. -/
def ChatMessage.GetTextContent (m : ChatMessage) : String :=
  match m.content with
  | .ofString s => s
  | .ofList items =>
    match items.find? (fun c => c.type == "text") with
    | some c => c.text
    | none => ""
  | .other => ""

/-- Model of `types.NewSystemMessage`. -/
def NewSystemMessage (content : String) : ChatMessage :=
  { role := "system", content := .ofString content }

/-- Model of `chat.ChatOption` values produced by `convertOptions`, modelled as tags. -/
inductive ChatOption where
  | withModel (model : List Nat)
  | withMaxTokens (n : Int)
  | withTemperature (t : Rat)
  | withTopP (p : Rat)
  | withStop (stop : List String)
  | withStream (b : Bool)
  deriving DecidableEq

/-- A Go `error` on the conversion path: either a typed `*ClaudeError` or a
plain `fmt.Errorf` error carrying only a message. -/
inductive GoError where
  | claude (e : ClaudeError)
  | plain (message : String)
  deriving DecidableEq

/-- Model of `error.Error()` of a `GoError`. -/
def GoError.message : GoError → String
  | .claude e => e.errorDetail.message
  | .plain m => m

/-! ## Request validation (`ClaudeToNewAPIConverter.ValidateRequest`,
proxy/converter/claude_to_newapi.go:227-305) -/

/-- Model of `validateContent`: a text block must be non-empty; an image block needs an
inline source or a URL; other types are unsupported. -/
def validateContent (content : ContentItem) (msgIndex contentIndex : Nat) : Except ClaudeError Unit :=
  if content.type = "text" then
    if content.text = "" then
      .error (NewInvalidRequestError
        ("text content cannot be empty at message " ++ toString msgIndex ++ ", content " ++ toString contentIndex))
    else .ok ()
  else if content.type = "image" then
    if content.imageURL = "" ∧ content.source = none then
      .error (NewInvalidRequestError
        ("image content must have either image_url or source at message " ++ toString msgIndex ++ ", content " ++ toString contentIndex))
    else .ok ()
  else
    .error (NewInvalidRequestError
      ("unsupported content type: " ++ content.type ++ " at message " ++ toString msgIndex ++ ", content " ++ toString contentIndex))

/-- The content loop inside `validateMessage`, indices made explicit. -/
def validateContentsFrom (msgIndex : Nat) : List ContentItem → Nat → Except ClaudeError Unit
  | [], _ => .ok ()
  | c :: rest, j =>
    match validateContent c msgIndex j with
    | .error e => .error e
    | .ok _ => validateContentsFrom msgIndex rest (j + 1)

/-- Model of `validateMessage`: role must be user or assistant, content non-empty, each
block valid. -/
def validateMessage (msg : ClaudeMessage) (index : Nat) : Except ClaudeError Unit :=
  if msg.role ≠ "user" ∧ msg.role ≠ "assistant" then
    .error (NewInvalidRequestError ("invalid role at message " ++ toString index ++ ": " ++ msg.role))
  else if msg.content = [] then
    .error (NewInvalidRequestError ("message " ++ toString index ++ " content cannot be empty"))
  else validateContentsFrom index msg.content 0

/-- The message loop inside `ValidateRequest`. -/
def validateMessagesFrom : List ClaudeMessage → Nat → Except ClaudeError Unit
  | [], _ => .ok ()
  | m :: rest, i =>
    match validateMessage m i with
    | .error e => .error e
    | .ok _ => validateMessagesFrom rest (i + 1)

/-- Model of `ClaudeToNewAPIConverter.ValidateRequest` (the nil-request guard has no
counterpart: the model passes requests by value). -/
def ValidateRequest (r : ClaudeRequest) : Except ClaudeError Unit :=
  if r.model = "" then .error (NewInvalidRequestError "model is required")
  else if r.maxTokens ≤ 0 then .error (NewInvalidRequestError "max_tokens must be positive")
  else if r.maxTokens > 200000 then .error (NewInvalidRequestError "max_tokens cannot exceed 200000")
  else if r.messages = [] then .error (NewInvalidRequestError "messages cannot be empty")
  else if r.temperature < 0 ∨ r.temperature > 1 then
    .error (NewInvalidRequestError "temperature must be between 0 and 1")
  else if r.topP < 0 ∨ r.topP > 1 then
    .error (NewInvalidRequestError "top_p must be between 0 and 1")
  else if r.topK < 0 then .error (NewInvalidRequestError "top_k must be non-negative")
  else validateMessagesFrom r.messages 0

/-! ## Request conversion (`ClaudeToNewAPIConverter.ConvertRequest` and the
`ClaudeRequest.Validate` it calls, claude_to_newapi.go:50-195 and
proxy/types/claude.go:265-320) -/

/-- The message loop of `ClaudeRequest.Validate` (proxy/types/claude.go):
only roles and content non-emptiness are checked there. -/
def validateTypesMessagesFrom : List ClaudeMessage → Nat → Except ClaudeError Unit
  | [], _ => .ok ()
  | m :: rest, i =>
    if m.role ≠ "user" ∧ m.role ≠ "assistant" then
      .error (NewInvalidRequestError ("invalid role at message " ++ toString i ++ ": " ++ m.role))
    else if m.content = [] then
      .error (NewInvalidRequestError ("message " ++ toString i ++ " content cannot be empty"))
    else validateTypesMessagesFrom rest (i + 1)

/-- Model of `ClaudeRequest.Validate` (proxy/types/claude.go:265-320), the weaker
validation `ConvertRequest` itself performs. -/
def ClaudeRequest.Validate (r : ClaudeRequest) : Except ClaudeError Unit :=
  if r.model = "" then .error (NewInvalidRequestError "model is required")
  else if r.maxTokens ≤ 0 then .error (NewInvalidRequestError "max_tokens must be positive")
  else if r.messages = [] then .error (NewInvalidRequestError "messages cannot be empty")
  else validateTypesMessagesFrom r.messages 0

/-- The result of `ClaudeToNewAPIConverter.convertContent`: a plain string for
a single text block, otherwise a content array. -/
inductive ConvValue where
  | str (s : String)
  | arr (items : List MessageContent)
  deriving DecidableEq

/-- The element loop of `ClaudeToNewAPIConverter.convertContent`: text maps to
a text element, an image is kept only when it has a URL (an inline-source-only
image is silently dropped), anything else is an error. -/
def convertContentLoop : List ContentItem → Except GoError (List MessageContent)
  | [] => .ok []
  | item :: rest =>
    if item.type = "text" then
      (convertContentLoop rest).map
        (fun tl => { type := "text", text := item.text, imageURL := "" } :: tl)
    else if item.type = "image" then
      if item.imageURL ≠ "" then
        (convertContentLoop rest).map
          (fun tl => { type := "image_url", text := "", imageURL := item.imageURL } :: tl)
      else convertContentLoop rest
    else .error (.plain ("unsupported content type: " ++ item.type))

/-- Model of `ClaudeToNewAPIConverter.convertContent` (claude_to_newapi.go:124-157). -/
def convertContent (claudeContent : List ContentItem) : Except GoError ConvValue :=
  match claudeContent with
  | [] => .error (.plain "content cannot be empty")
  | [item] =>
    if item.type = "text" then .ok (.str item.text)
    else (convertContentLoop [item]).map .arr
  | items => (convertContentLoop items).map .arr

/-- Model of `ClaudeToNewAPIConverter.convertMessage`. -/
def convertMessage (claudeMsg : ClaudeMessage) : Except GoError ChatMessage :=
  let roleRes : Except GoError String :=
    if claudeMsg.role = "user" then .ok "user"
    else if claudeMsg.role = "assistant" then .ok "assistant"
    else if claudeMsg.role = "system" then .ok "system"
    else .error (.plain ("unsupported role: " ++ claudeMsg.role))
  match roleRes with
  | .error e => .error e
  | .ok role =>
    match convertContent claudeMsg.content with
    | .error e => .error e
    | .ok (.str s) => .ok { role := role, content := .ofString s }
    | .ok (.arr l) => .ok { role := role, content := .ofList l }

/-- The message loop of `convertMessages`. -/
def convertMessagesLoop : List ClaudeMessage → Except GoError (List ChatMessage)
  | [] => .ok []
  | m :: rest =>
    match convertMessage m with
    | .error e => .error e
    | .ok cm =>
      match convertMessagesLoop rest with
      | .error e => .error e
      | .ok tl => .ok (cm :: tl)

/-- Model of `ClaudeToNewAPIConverter.convertMessages`: a non-empty system text becomes
a leading system message. -/
def convertMessages (claudeMessages : List ClaudeMessage) (systemMessage : String) :
    Except GoError (List ChatMessage) :=
  match convertMessagesLoop claudeMessages with
  | .error e => .error e
  | .ok tl =>
    .ok ((if systemMessage ≠ "" then [NewSystemMessage systemMessage] else []) ++ tl)

/-- Model of `ClaudeToNewAPIConverter.convertOptions` (claude_to_newapi.go:160-195);
the Go function can never return an error, so it is modelled as total. -/
def convertOptions (r : ClaudeRequest) : List ChatOption :=
  (if r.model ≠ "" then [ChatOption.withModel (mapModel (strChars r.model))] else [])
  ++ (if r.maxTokens > 0 then [ChatOption.withMaxTokens r.maxTokens] else [])
  ++ (if r.temperature > 0 then [ChatOption.withTemperature r.temperature] else [])
  ++ (if r.topP > 0 then [ChatOption.withTopP r.topP] else [])
  ++ (if r.stopSequences ≠ [] then [ChatOption.withStop r.stopSequences] else [])
  ++ (if r.stream then [ChatOption.withStream true] else [])

/-- Model of `ClaudeToNewAPIConverter.ConvertRequest` (claude_to_newapi.go:50-73):
`ClaudeRequest.Validate`, then message conversion, then options. -/
def ConvertRequest (r : ClaudeRequest) : Except GoError (List ChatMessage × List ChatOption) :=
  match ClaudeRequest.Validate r with
  | .error e => .error (.claude e)
  | .ok _ =>
    match convertMessages r.messages r.system with
    | .error e => .error (.plain ("failed to convert messages: " ++ e.message))
    | .ok msgs => .ok (msgs, convertOptions r)

/-- The request-translation path of `MessageHandler.HandleMessage`
(proxy/server/handlers.go:38-63): `ValidateRequest` first, then
`ConvertRequest`. -/
def translateRequest (r : ClaudeRequest) : Except GoError (List ChatMessage × List ChatOption) :=
  match ValidateRequest r with
  | .error e => .error (.claude e)
  | .ok _ => ConvertRequest r

/-- Whether translation fails with an InvalidRequest error. -/
def failsWithInvalidRequest (r : ClaudeRequest) : Bool :=
  match translateRequest r with
  | .error (.claude e) => e.errorDetail.type == "invalid_request_error"
  | .error (.plain _) => false
  | .ok _ => false

/-! ## What `ValidateRequest` accepts -/

/-- A content block `validateContent` accepts. -/
def contentOK (c : ContentItem) : Prop :=
  (c.type = "text" ∧ c.text ≠ "")
  ∨ (c.type = "image" ∧ ¬ (c.imageURL = "" ∧ c.source = none))

/-- A message `validateMessage` accepts. -/
def messageOK (m : ClaudeMessage) : Prop :=
  (m.role = "user" ∨ m.role = "assistant") ∧ m.content ≠ [] ∧ ∀ c ∈ m.content, contentOK c

/-- A request `ValidateRequest` accepts. -/
def requestOK (r : ClaudeRequest) : Prop :=
  r.model ≠ "" ∧ ¬ r.maxTokens ≤ 0 ∧ ¬ r.maxTokens > 200000 ∧ r.messages ≠ []
  ∧ ¬ (r.temperature < 0 ∨ r.temperature > 1) ∧ ¬ (r.topP < 0 ∨ r.topP > 1)
  ∧ ¬ r.topK < 0 ∧ ∀ m ∈ r.messages, messageOK m

theorem validateContent_ok_iff (c : ContentItem) (i j : Nat) :
    validateContent c i j = .ok () ↔ contentOK c := by
  unfold validateContent contentOK
  split_ifs with h1 h2 h3 h4
  · simp only [h1]
    simp [h2]
  · simp [h1, h2]
  · simp only [h3]
    simp [h1, h4]
  · simp [h1, h3, h4]
  · simp [h1, h3]

theorem validateContentsFrom_ok_iff (i : Nat) (l : List ContentItem) (j : Nat) :
    validateContentsFrom i l j = .ok () ↔ ∀ c ∈ l, contentOK c := by
  induction l generalizing j with
  | nil => simp [validateContentsFrom]
  | cons c rest ih =>
    unfold validateContentsFrom
    cases hv : validateContent c i j with
    | error e =>
      have : ¬ contentOK c := by
        rw [← validateContent_ok_iff c i j, hv]
        simp
      simp [this]
    | ok u =>
      cases u
      have : contentOK c := (validateContent_ok_iff c i j).1 hv
      simp [ih, this]

theorem validateMessage_ok_iff (m : ClaudeMessage) (i : Nat) :
    validateMessage m i = .ok () ↔ messageOK m := by
  unfold validateMessage messageOK
  split_ifs with h1 h2
  · have : ¬ (m.role = "user" ∨ m.role = "assistant") := by tauto
    simp [this]
  · have : (m.role = "user" ∨ m.role = "assistant") := by tauto
    simp [this, h2]
  · have hrole : (m.role = "user" ∨ m.role = "assistant") := by tauto
    simp [hrole, h2, validateContentsFrom_ok_iff]

theorem validateMessagesFrom_ok_iff (l : List ClaudeMessage) (i : Nat) :
    validateMessagesFrom l i = .ok () ↔ ∀ m ∈ l, messageOK m := by
  induction l generalizing i with
  | nil => simp [validateMessagesFrom]
  | cons m rest ih =>
    unfold validateMessagesFrom
    cases hv : validateMessage m i with
    | error e =>
      have : ¬ messageOK m := by
        rw [← validateMessage_ok_iff m i, hv]
        simp
      simp [this]
    | ok u =>
      cases u
      have : messageOK m := (validateMessage_ok_iff m i).1 hv
      simp [ih, this]

theorem ValidateRequest_ok_iff (r : ClaudeRequest) :
    ValidateRequest r = .ok () ↔ requestOK r := by
  unfold ValidateRequest requestOK
  split_ifs with h1 h2 h3 h4 h5 h6 h7
  · simp [h1]
  · simp [h1, h2]
  · simp [h1, h2, h3]
  · simp [h1, h2, h3, h4]
  · simp [h1, h2, h3, h4, h5]
  · simp [h1, h2, h3, h4, h5, h6]
  · simp [h1, h2, h3, h4, h5, h6, h7]
  · simp [h1, h2, h3, h4, h5, h6, h7, validateMessagesFrom_ok_iff]

/-! ## Every `ValidateRequest` error is an InvalidRequest error -/

theorem validateContent_error_type {c : ContentItem} {i j : Nat} {e : ClaudeError}
    (h : validateContent c i j = .error e) : e.errorDetail.type = "invalid_request_error" := by
  unfold validateContent at h
  split_ifs at h <;> (cases h; rfl)

theorem validateContentsFrom_error_type {i : Nat} {l : List ContentItem} {j : Nat} {e : ClaudeError}
    (h : validateContentsFrom i l j = .error e) : e.errorDetail.type = "invalid_request_error" := by
  induction l generalizing j with
  | nil => simp [validateContentsFrom] at h
  | cons c rest ih =>
    unfold validateContentsFrom at h
    cases hv : validateContent c i j with
    | error e' =>
      rw [hv] at h
      cases h
      exact validateContent_error_type hv
    | ok u =>
      cases u
      rw [hv] at h
      exact ih h

theorem validateMessage_error_type {m : ClaudeMessage} {i : Nat} {e : ClaudeError}
    (h : validateMessage m i = .error e) : e.errorDetail.type = "invalid_request_error" := by
  unfold validateMessage at h
  split_ifs at h
  · cases h; rfl
  · cases h; rfl
  · exact validateContentsFrom_error_type h

theorem validateMessagesFrom_error_type {l : List ClaudeMessage} {i : Nat} {e : ClaudeError}
    (h : validateMessagesFrom l i = .error e) : e.errorDetail.type = "invalid_request_error" := by
  induction l generalizing i with
  | nil => simp [validateMessagesFrom] at h
  | cons m rest ih =>
    unfold validateMessagesFrom at h
    cases hv : validateMessage m i with
    | error e' =>
      rw [hv] at h
      cases h
      exact validateMessage_error_type hv
    | ok u =>
      cases u
      rw [hv] at h
      exact ih h

theorem ValidateRequest_error_type {r : ClaudeRequest} {e : ClaudeError}
    (h : ValidateRequest r = .error e) : e.errorDetail.type = "invalid_request_error" := by
  unfold ValidateRequest at h
  split_ifs at h <;> first
    | (cases h; rfl)
    | exact validateMessagesFrom_error_type h

/-! ## After `ValidateRequest`, `ConvertRequest` cannot fail -/

theorem validateTypesMessagesFrom_ok {l : List ClaudeMessage}
    (h : ∀ m ∈ l, messageOK m) : ∀ i, validateTypesMessagesFrom l i = .ok () := by
  induction l with
  | nil => intro i; rfl
  | cons m rest ih =>
    intro i
    have hm := h m (List.mem_cons_self _ _)
    have hrole : ¬ (m.role ≠ "user" ∧ m.role ≠ "assistant") := by
      rcases hm.1 with h' | h' <;> simp [h']
    have hcontent : ¬ m.content = [] := hm.2.1
    unfold validateTypesMessagesFrom
    rw [if_neg hrole, if_neg hcontent]
    exact ih (fun m' hm' => h m' (List.mem_cons_of_mem _ hm')) (i + 1)

theorem ClaudeRequest.Validate_ok {r : ClaudeRequest} (h : requestOK r) :
    ClaudeRequest.Validate r = .ok () := by
  obtain ⟨h1, h2, _, h4, _, _, _, h8⟩ := h
  unfold ClaudeRequest.Validate
  rw [if_neg h1, if_neg h2, if_neg h4]
  exact validateTypesMessagesFrom_ok h8 0

theorem convertContentLoop_ok {items : List ContentItem}
    (h : ∀ c ∈ items, contentOK c) : ∃ l, convertContentLoop items = .ok l := by
  induction items with
  | nil => exact ⟨[], rfl⟩
  | cons item rest ih =>
    obtain ⟨l, hl⟩ := ih (fun c hc => h c (List.mem_cons_of_mem _ hc))
    have hitem := h item (List.mem_cons_self _ _)
    unfold convertContentLoop
    rcases hitem with ⟨ht, _⟩ | ⟨hi, _⟩
    · rw [if_pos ht, hl]
      exact ⟨_, rfl⟩
    · have hne : ¬ item.type = "text" := by
        rw [hi]; decide
      rw [if_neg hne, if_pos hi]
      by_cases hu : item.imageURL ≠ ""
      · rw [if_pos hu, hl]
        exact ⟨_, rfl⟩
      · rw [if_neg hu]
        exact ⟨l, hl⟩

theorem convertContent_ok {content : List ContentItem}
    (hne : content ≠ []) (h : ∀ c ∈ content, contentOK c) :
    ∃ v, convertContent content = .ok v := by
  match content with
  | [] => exact absurd rfl hne
  | [item] =>
    by_cases ht : item.type = "text"
    · refine ⟨.str item.text, ?_⟩
      simp [convertContent, ht]
    · obtain ⟨l, hl⟩ := convertContentLoop_ok h
      refine ⟨.arr l, ?_⟩
      simp [convertContent, ht, hl, Except.map]
  | a :: b :: rest =>
    obtain ⟨l, hl⟩ := convertContentLoop_ok h
    refine ⟨.arr l, ?_⟩
    simp [convertContent, hl, Except.map]

theorem convertMessage_ok {m : ClaudeMessage} (h : messageOK m) :
    ∃ cm, convertMessage m = .ok cm := by
  obtain ⟨hrole, hne, hall⟩ := h
  obtain ⟨v, hv⟩ := convertContent_ok hne hall
  unfold convertMessage
  rcases hrole with h' | h'
  · rw [h']
    simp only [if_pos rfl, hv]
    cases v <;> exact ⟨_, rfl⟩
  · rw [h']
    have : ¬ ("assistant" : String) = "user" := by decide
    simp only [if_neg this, if_pos rfl, hv]
    cases v <;> exact ⟨_, rfl⟩

theorem convertMessagesLoop_ok {l : List ClaudeMessage}
    (h : ∀ m ∈ l, messageOK m) : ∃ cl, convertMessagesLoop l = .ok cl := by
  induction l with
  | nil => exact ⟨[], rfl⟩
  | cons m rest ih =>
    obtain ⟨cm, hcm⟩ := convertMessage_ok (h m (List.mem_cons_self _ _))
    obtain ⟨cl, hcl⟩ := ih (fun m' hm' => h m' (List.mem_cons_of_mem _ hm'))
    unfold convertMessagesLoop
    rw [hcm, hcl]
    exact ⟨_, rfl⟩

theorem ConvertRequest_ok {r : ClaudeRequest} (h : requestOK r) :
    ∃ p, ConvertRequest r = .ok p := by
  obtain ⟨cl, hcl⟩ := convertMessagesLoop_ok h.2.2.2.2.2.2.2
  unfold ConvertRequest convertMessages
  rw [ClaudeRequest.Validate_ok h, hcl]
  exact ⟨_, rfl⟩

/-! ## The claimed and the amended failure conditions for request translation -/

/-- A content block failing one of the conditions listed by claim C4. -/
def specContentBad (c : ContentItem) : Prop :=
  (c.type = "text" ∧ c.text = "")
  ∨ (c.type = "image" ∧ c.imageURL = "" ∧ c.source = none)

/-- C4's claimed failure conditions, as stated (stated from the claim's
wording, for comparison with the code). -/
def specInvalidC4 (r : ClaudeRequest) : Prop :=
  r.model = "" ∨ r.maxTokens ≤ 0 ∨ r.maxTokens > 200000 ∨ r.messages = []
  ∨ (r.temperature < 0 ∨ r.temperature > 1) ∨ (r.topP < 0 ∨ r.topP > 1)
  ∨ ∃ m ∈ r.messages,
      (m.role ≠ "user" ∧ m.role ≠ "assistant") ∨ m.content = []
      ∨ ∃ c ∈ m.content, specContentBad c

/-- A content block failing the amended per-block conditions: the claim's two
cases plus a block whose type is neither text nor image. -/
def amendedContentBad (c : ContentItem) : Prop :=
  specContentBad c ∨ (c.type ≠ "text" ∧ c.type ≠ "image")

/-- C4's failure conditions amended to what the code checks: the claimed list
plus a negative top_k and a content block of unknown type. -/
def amendedInvalidC4 (r : ClaudeRequest) : Prop :=
  r.model = "" ∨ r.maxTokens ≤ 0 ∨ r.maxTokens > 200000 ∨ r.messages = []
  ∨ (r.temperature < 0 ∨ r.temperature > 1) ∨ (r.topP < 0 ∨ r.topP > 1)
  ∨ r.topK < 0
  ∨ ∃ m ∈ r.messages,
      (m.role ≠ "user" ∧ m.role ≠ "assistant") ∨ m.content = []
      ∨ ∃ c ∈ m.content, amendedContentBad c

instance (c : ContentItem) : Decidable (specContentBad c) := by
  unfold specContentBad
  infer_instance

instance (c : ContentItem) : Decidable (amendedContentBad c) := by
  unfold amendedContentBad
  infer_instance

instance (r : ClaudeRequest) : Decidable (specInvalidC4 r) := by
  unfold specInvalidC4
  infer_instance

instance (r : ClaudeRequest) : Decidable (amendedInvalidC4 r) := by
  unfold amendedInvalidC4
  infer_instance

theorem amendedContentBad_iff (c : ContentItem) : amendedContentBad c ↔ ¬ contentOK c := by
  unfold amendedContentBad specContentBad contentOK
  by_cases h1 : c.type = "text" <;> by_cases h2 : c.type = "image"
  · rw [h1] at h2
    simp at h2
  · simp [h1, h2]
  · simp [h1, h2]
  · simp [h1, h2]

theorem amendedMessageBad_iff (m : ClaudeMessage) :
    ((m.role ≠ "user" ∧ m.role ≠ "assistant") ∨ m.content = []
      ∨ ∃ c ∈ m.content, amendedContentBad c) ↔ ¬ messageOK m := by
  unfold messageOK
  rw [exists_congr (fun c => and_congr_right (fun _ => amendedContentBad_iff c))]
  have flip : (∃ c ∈ m.content, ¬ contentOK c) ↔ ¬ ∀ c ∈ m.content, contentOK c := by
    push_neg
    rfl
  rw [flip]
  tauto

theorem amendedInvalidC4_iff (r : ClaudeRequest) : amendedInvalidC4 r ↔ ¬ requestOK r := by
  unfold amendedInvalidC4 requestOK
  rw [exists_congr (fun m => and_congr_right (fun _ => amendedMessageBad_iff m))]
  have flip : (∃ m ∈ r.messages, ¬ messageOK m) ↔ ¬ ∀ m ∈ r.messages, messageOK m := by
    push_neg
    rfl
  rw [flip]
  tauto

/-- C4 (amended) — request translation (the handler's `ValidateRequest`
followed by `ConvertRequest`) fails, always with an InvalidRequest error,
exactly when one of the claimed conditions holds, *amended* with the two
conditions the claim omits: a negative `top_k`, or a content block whose type
is neither "text" nor "image".  For every request violating none of these,
translation succeeds. -/
theorem translateRequest_invalid_iff :
    ∀ r : ClaudeRequest, failsWithInvalidRequest r = true ↔ amendedInvalidC4 r := by
  intro r
  unfold failsWithInvalidRequest translateRequest
  rw [amendedInvalidC4_iff]
  cases hv : ValidateRequest r with
  | error e =>
    have htype : e.errorDetail.type = "invalid_request_error" := ValidateRequest_error_type hv
    have hnotok : ¬ requestOK r := by
      rw [← ValidateRequest_ok_iff, hv]
      simp
    simp [htype, hnotok]
  | ok u =>
    cases u
    have hok : requestOK r := (ValidateRequest_ok_iff r).1 hv
    obtain ⟨p, hp⟩ := ConvertRequest_ok hok
    rw [hp]
    simp [hok]

/-- C4 counterexample — a request with `top_k = -1` that violates none of the
claim's listed conditions, yet translation rejects it with an InvalidRequest
error ("top_k must be non-negative"). -/
def c4Request : ClaudeRequest :=
  { model := "claude-3-haiku-20240307", maxTokens := 16,
    messages := [{ role := "user",
                   content := [{ type := "text", text := "hi", source := none, imageURL := "" }] }],
    system := "", temperature := 0, topP := 0, topK := -1,
    stopSequences := [], stream := false }

/-- C4 counterexample theorem — the claim's "exactly when" fails on the code:
`c4Request` violates none of the claim's conditions but translation fails
with an InvalidRequest error. -/
theorem translateRequest_spec_counterexample :
    ¬ specInvalidC4 c4Request ∧ failsWithInvalidRequest c4Request = true := by
  constructor
  · decide
  · decide

/-- C9 — an image block with an empty `image_url` but a non-nil inline
`source` passes `validateContent` and `validateMessage`, yet
`convertContent` silently drops it: a message whose only block is such an
image converts to an *empty* backend content array with no error
(claude_to_newapi.go:124-157,290-305). -/
theorem inline_image_validated_but_dropped :
    ∀ (img : Image) (i j : Nat),
      validateContent { type := "image", text := "", source := some img, imageURL := "" } i j = .ok ()
      ∧ validateMessage
          { role := "user",
            content := [{ type := "image", text := "", source := some img, imageURL := "" }] } i = .ok ()
      ∧ convertContent [{ type := "image", text := "", source := some img, imageURL := "" }]
          = .ok (.arr [])
      ∧ convertMessage
          { role := "user",
            content := [{ type := "image", text := "", source := some img, imageURL := "" }] }
          = .ok { role := "user", content := .ofList [] } :=
  fun _ _ _ => ⟨rfl, rfl, rfl, rfl⟩

/-! ## SDK response types and the response translator
(`NewAPIToClaudeConverter`, proxy/converter/newapi_to_claude.go) -/

/-- Model of `types.Usage` of the SDK. -/
structure SDKUsage where
  promptTokens : Int
  completionTokens : Int
  totalTokens : Int
  deriving DecidableEq

/-- Model of `types.ErrorResponse` of the SDK. -/
structure ErrorResponse where
  type : String
  code : String
  message : String
  deriving DecidableEq

/-- Model of `types.ChatCompletionChoice` (logprobs and the stream-only delta omitted). -/
structure ChatCompletionChoice where
  index : Int
  message : ChatMessage
  finishReason : String
  deriving DecidableEq

/-- Model of `types.ChatCompletionResponse` (fields not read by the proxy omitted). -/
structure ChatCompletionResponse where
  id : String
  model : String
  choices : List ChatCompletionChoice
  usage : SDKUsage
  error : Option ErrorResponse
  deriving DecidableEq

/-- Model of `ClaudeResponse` (proxy/types/claude.go). -/
structure Usage where
  inputTokens : Int
  outputTokens : Int
  deriving DecidableEq

/-- Model of `ClaudeResponse` — the non-streaming client-protocol response. -/
structure ClaudeResponse where
  id : String
  type : String
  role : String
  content : List ContentItem
  model : String
  stopReason : String
  stopSequence : String
  usage : Usage
  deriving DecidableEq

/-- Model of `getStopReasonMapping` (newapi_to_claude.go:25-34), in source order. -/
def stopReasonMapping : List (String × String) :=
  [("stop", "end_turn"), ("length", "max_tokens"), ("content_filter", "end_turn"),
   ("tool_calls", "tool_use"), ("function_call", "tool_use"), ("", "end_turn")]

/-- Model of `NewAPIToClaudeConverter.mapStopReason`: table lookup with an `end_turn`
default. -/
def mapStopReason (finishReason : String) : String :=
  match stopReasonMapping.find? (fun p => p.1 == finishReason) with
  | some p => p.2
  | none => "end_turn"

/-- The per-shape reconstruction inside `NewAPIToClaudeConverter.convertContent`
(newapi_to_claude.go:72-113), before the non-empty fallback. -/
def convertRespContentRaw (message : ChatMessage) : List ContentItem :=
  match message.content with
  | .ofString s =>
    if s ≠ "" then [{ type := "text", text := s, source := none, imageURL := "" }] else []
  | .ofList items =>
    items.filterMap (fun item =>
      if item.type = "text" then
        (if item.text ≠ ""
         then some { type := "text", text := item.text, source := none, imageURL := "" }
         else none)
      else if item.type = "image_url" then
        (if item.imageURL ≠ ""
         then some { type := "image", text := "", source := none, imageURL := item.imageURL }
         else none)
      else none)
  | .other =>
    if message.GetTextContent ≠ ""
    then [{ type := "text", text := message.GetTextContent, source := none, imageURL := "" }]
    else []

/-- Model of `NewAPIToClaudeConverter.convertContent`: reconstruction plus the
"if no content, add an empty text block" fallback (newapi_to_claude.go:114-120). -/
def convertRespContent (message : ChatMessage) : List ContentItem :=
  if convertRespContentRaw message = []
  then [{ type := "text", text := "", source := none, imageURL := "" }]
  else convertRespContentRaw message

/-- Model of `NewAPIToClaudeConverter.convertError` (newapi_to_claude.go:134-150). -/
def convertError : Option ErrorResponse → ClaudeError
  | none => NewAPIError "unknown error"
  | some err =>
    if err.type = "invalid_request_error" then NewInvalidRequestError err.message
    else if err.type = "authentication_error" then NewAuthenticationError err.message
    else if err.type = "rate_limit_error" then NewRateLimitError err.message
    else NewAPIError err.message

/-- Model of `NewAPIToClaudeConverter.ConvertResponse` (newapi_to_claude.go:37-69). -/
def ConvertResponse (resp : ChatCompletionResponse) (originalModel : String) :
    Except GoError ClaudeResponse :=
  if resp.error.isSome then .error (.claude (convertError resp.error))
  else
    match resp.choices with
    | [] => .error (.plain "no choices in response")
    | choice :: _ =>
      .ok { id := resp.id, type := "message", role := "assistant",
            content := convertRespContent choice.message,
            model := originalModel,
            stopReason := mapStopReason choice.finishReason,
            stopSequence := "",
            usage := { inputTokens := resp.usage.promptTokens,
                       outputTokens := resp.usage.completionTokens } }

theorem convertRespContent_ne_nil (m : ChatMessage) : convertRespContent m ≠ [] := by
  unfold convertRespContent
  split_ifs with h
  · simp
  · exact h

/-- C7 — every successfully translated backend response has a non-empty
content list: when the first choice's message yields no representable
blocks, a single empty text block is produced instead
(newapi_to_claude.go:37-69,114-120). -/
theorem ConvertResponse_content_nonempty :
    ∀ (resp : ChatCompletionResponse) (originalModel : String) (cr : ClaudeResponse),
      ConvertResponse resp originalModel = .ok cr → cr.content ≠ [] := by
  intro resp originalModel cr h
  unfold ConvertResponse at h
  split_ifs at h
  cases hc : resp.choices with
  | nil => rw [hc] at h; cases h
  | cons choice rest =>
    rw [hc] at h
    cases h
    exact convertRespContent_ne_nil choice.message

/-- A backend response whose only choice carries an empty string content. -/
def c7Response : ChatCompletionResponse :=
  { id := "chatcmpl-1", model := "gpt-x",
    choices := [{ index := 0,
                  message := { role := "assistant", content := .ofString "" },
                  finishReason := "stop" }],
    usage := { promptTokens := 5, completionTokens := 7, totalTokens := 12 },
    error := none }

/-- Witness for C7: the unrepresentable (empty-string) backend content becomes
a single empty text block, and the content list is non-empty. -/
theorem ConvertResponse_content_nonempty_witness :
    ConvertResponse c7Response "claude-3-sonnet-20240229"
      = .ok { id := "chatcmpl-1", type := "message", role := "assistant",
              content := [{ type := "text", text := "", source := none, imageURL := "" }],
              model := "claude-3-sonnet-20240229", stopReason := "end_turn",
              stopSequence := "",
              usage := { inputTokens := 5, outputTokens := 7 } }
    ∧ ({ id := "chatcmpl-1", type := "message", role := "assistant",
         content := [{ type := "text", text := "", source := none, imageURL := "" }],
         model := "claude-3-sonnet-20240229", stopReason := "end_turn",
         stopSequence := "",
         usage := { inputTokens := 5, outputTokens := 7 } } : ClaudeResponse).content ≠ [] :=
  ⟨rfl, ConvertResponse_content_nonempty c7Response "claude-3-sonnet-20240229" _ rfl⟩

/-! ## Stream events and the streaming pipeline
(`ConvertStreamChunk`, `GenerateStreamEvents`, `GenerateStreamEndEvents`,
`handleStreamMessage`, `sendStreamError`) -/

/-- Model of `types.ChatCompletionChunkChoice` of the SDK. -/
structure ChatCompletionChunkChoice where
  index : Int
  delta : ChatMessage
  finishReason : String
  deriving DecidableEq

/-- Model of `types.ChatCompletionChunk` of the SDK (fields not read by the proxy
omitted). -/
structure ChatCompletionChunk where
  id : String
  model : String
  choices : List ChatCompletionChunkChoice
  usage : Option SDKUsage
  deriving DecidableEq

/-- A client-protocol stream event, modelled structurally (the JSON payload
each `create*Event` function marshals is captured by the constructor's
fields). -/
inductive ClaudeStreamEvent where
  | messageStart (id model : String)
  | contentBlockStart (index : Int)
  | ping
  | contentBlockDelta (index : Int) (text : String)
  | contentBlockStop (index : Int)
  | messageDelta (stopReason : String) (usage : Usage)
  | messageStop
  | errorEvent (errorType errorMessage : String)
  deriving DecidableEq, BEq

/-- Model of `createMessageStartEvent`. -/
def createMessageStartEvent (id model : String) : ClaudeStreamEvent :=
  .messageStart id model

/-- Model of `createContentBlockStartEvent`. -/
def createContentBlockStartEvent (index : Int) : ClaudeStreamEvent :=
  .contentBlockStart index

/-- Model of `createContentDeltaEvent`: the delta text is `delta.GetTextContent()`. -/
def createContentDeltaEvent (delta : ChatMessage) (index : Int) : ClaudeStreamEvent :=
  .contentBlockDelta index delta.GetTextContent

/-- Model of `createContentBlockStopEvent`. -/
def createContentBlockStopEvent (index : Int) : ClaudeStreamEvent :=
  .contentBlockStop index

/-- Model of `createMessageDeltaEvent`: maps the stop reason through the table; a nil
usage becomes zero counts. -/
def createMessageDeltaEvent (stopReason : String) (usage : Option SDKUsage) : ClaudeStreamEvent :=
  .messageDelta (mapStopReason stopReason)
    (match usage with
     | none => { inputTokens := 0, outputTokens := 0 }
     | some u => { inputTokens := u.promptTokens, outputTokens := u.completionTokens })

/-- Model of `createMessageStopEvent`. -/
def createMessageStopEvent : ClaudeStreamEvent :=
  .messageStop

/-- Model of `createPingEvent`. -/
def createPingEvent : ClaudeStreamEvent :=
  .ping

/-- Model of `NewAPIToClaudeConverter.createErrorEvent` (newapi_to_claude.go:306-320):
the error type is hardcoded to "api_error". -/
def createErrorEvent (errMessage : String) : ClaudeStreamEvent :=
  .errorEvent "api_error" errMessage

/-- Model of `MessageHandler.sendStreamError` (handlers.go:215-231): likewise a
hardcoded "api_error" carrying `err.Error()`. -/
def sendStreamErrorEvent (err : GoError) : ClaudeStreamEvent :=
  .errorEvent "api_error" err.message

/-- Model of `NewAPIToClaudeConverter.ConvertStreamChunk` (newapi_to_claude.go:153-173):
a chunk with a finish reason becomes a `message_stop` event; otherwise a
`content_block_delta` at index 0. -/
def ConvertStreamChunk (chunk : ChatCompletionChunk) : Except GoError ClaudeStreamEvent :=
  match chunk.choices with
  | [] => .error (.plain "no choices in chunk")
  | choice :: _ =>
    if choice.finishReason ≠ "" then .ok createMessageStopEvent
    else .ok (createContentDeltaEvent choice.delta 0)

/-- Model of `GenerateStreamEvents` (newapi_to_claude.go:331-344). -/
def GenerateStreamEvents (messageID model : String) : List ClaudeStreamEvent :=
  [createMessageStartEvent messageID model, createContentBlockStartEvent 0, createPingEvent]

/-- Model of `GenerateStreamEndEvents` (newapi_to_claude.go:347-360). -/
def GenerateStreamEndEvents (stopReason : String) (usage : Option SDKUsage) :
    List ClaudeStreamEvent :=
  [createContentBlockStopEvent 0, createMessageDeltaEvent stopReason usage, createMessageStopEvent]

/-- The chunk loop of `handleStreamMessage` (handlers.go:147-177): each decoded
chunk goes through `ConvertStreamChunk`; a conversion error sends one error
event and returns; end of stream sends `GenerateStreamEndEvents("", nil)`. -/
def processChunks : List ChatCompletionChunk → List ClaudeStreamEvent
  | [] => GenerateStreamEndEvents "" none
  | c :: rest =>
    match ConvertStreamChunk c with
    | .error e => [sendStreamErrorEvent e]
    | .ok ev => ev :: processChunks rest

/-- The full event sequence `handleStreamMessage` writes for a backend stream
that delivers `chunks` and then EOF (handlers.go:100-177). -/
def handleStreamMessageEvents (messageID model : String)
    (chunks : List ChatCompletionChunk) : List ClaudeStreamEvent :=
  GenerateStreamEvents messageID model ++ processChunks chunks

/-- A terminal chunk: empty delta, finish reason "stop". -/
def c1Chunk : ChatCompletionChunk :=
  { id := "chunk-1", model := "m",
    choices := [{ index := 0, delta := { role := "assistant", content := .ofString "" },
                  finishReason := "stop" }],
    usage := none }

/-- C1 — the claimed exactly-once lifecycle fails on the code: for a chunk
sequence ending in a finish-reason chunk, the pipeline emits `message_stop`
*twice* (once from `ConvertStreamChunk` on the finish chunk, once from the
end events), and the first `message_stop` precedes `content_block_stop` and
`message_delta`, violating the claimed order. -/
theorem stream_lifecycle_double_stop :
    handleStreamMessageEvents "msg_1" "claude-3-sonnet-20240229" [c1Chunk]
      = [.messageStart "msg_1" "claude-3-sonnet-20240229", .contentBlockStart 0, .ping,
         .messageStop, .contentBlockStop 0,
         .messageDelta "end_turn" { inputTokens := 0, outputTokens := 0 }, .messageStop]
    ∧ (handleStreamMessageEvents "msg_1" "claude-3-sonnet-20240229" [c1Chunk]).count
        .messageStop = 2 := by
  constructor
  · rfl
  · rfl

/-- The chunk sequence of Scenario C: deltas "Hel" and "lo", then an empty
delta carrying finish reason "length". -/
def c3Chunks : List ChatCompletionChunk :=
  [ { id := "chunk-1", model := "m",
      choices := [{ index := 0, delta := { role := "assistant", content := .ofString "Hel" },
                    finishReason := "" }],
      usage := none },
    { id := "chunk-2", model := "m",
      choices := [{ index := 0, delta := { role := "assistant", content := .ofString "lo" },
                    finishReason := "" }],
      usage := none },
    { id := "chunk-3", model := "m",
      choices := [{ index := 0, delta := { role := "assistant", content := .ofString "" },
                    finishReason := "length" }],
      usage := none } ]

/-- C3 — Scenario C fails on the code: the finish chunk itself becomes a
`message_stop`, and the end events are generated with an *empty* stop reason,
so the `message_delta` carries "end_turn", not "max_tokens" — even though the
stop-reason table does map "length" to "max_tokens". -/
theorem scenario_c_finish_reason_dropped :
    handleStreamMessageEvents "msg_1" "m" c3Chunks
      = [.messageStart "msg_1" "m", .contentBlockStart 0, .ping,
         .contentBlockDelta 0 "Hel", .contentBlockDelta 0 "lo",
         .messageStop, .contentBlockStop 0,
         .messageDelta "end_turn" { inputTokens := 0, outputTokens := 0 }, .messageStop]
    ∧ mapStopReason "length" = "max_tokens" := by
  constructor
  · rfl
  · rfl

/-- C10 — every error event written on the streaming path carries the type
"api_error" together with the underlying error's message, whatever the
underlying error's own taxonomy kind was; both `sendStreamError` and
`createErrorEvent` hardcode the type. -/
theorem stream_error_envelope_api_error :
    ∀ msg : String,
      sendStreamErrorEvent (.claude (NewInvalidRequestError msg)) = .errorEvent "api_error" msg
      ∧ sendStreamErrorEvent (.claude (NewAuthenticationError msg)) = .errorEvent "api_error" msg
      ∧ sendStreamErrorEvent (.claude (NewRateLimitError msg)) = .errorEvent "api_error" msg
      ∧ sendStreamErrorEvent (.claude (NewAPIError msg)) = .errorEvent "api_error" msg
      ∧ sendStreamErrorEvent (.plain msg) = .errorEvent "api_error" msg
      ∧ (∀ err : GoError, sendStreamErrorEvent err = .errorEvent "api_error" err.message)
      ∧ createErrorEvent msg = .errorEvent "api_error" msg :=
  fun _ => ⟨rfl, rfl, rfl, rfl, rfl, fun _ => rfl, rfl⟩

/-! ## Transport retry (`HTTPClient.doWithRetry`, `DefaultRetryPolicy`,
`ResponseHandler.ShouldRetry`) -/

/-- The outcome of one `hc.client.Do` attempt: a response with a status code
(and `err == nil`), or a non-nil error (a `net.Error` with its
`Temporary`/`Timeout` flags, or any other error). -/
inductive AttemptOutcome where
  | resp (status : Nat)
  | failure (isNetError temporary timeout : Bool)
  deriving DecidableEq

/-- Model of `err == nil` for an attempt outcome. -/
def AttemptOutcome.isNoError : AttemptOutcome → Bool
  | .resp _ => true
  | .failure _ _ _ => false

/-- Model of `DefaultRetryPolicy` (part of the transport): maximum retries and base
delay; `NewDefaultRetryPolicy` sets 3 retries and a 1s base delay. -/
structure RetryPolicyModel where
  maxRetries : Nat
  baseDelayMs : Nat
  deriving DecidableEq

/-- Model of `NewDefaultRetryPolicy`. -/
def NewDefaultRetryPolicy : RetryPolicyModel :=
  { maxRetries := 3, baseDelayMs := 1000 }

/-- Model of `DefaultRetryPolicy.BackoffDelay`: base × 2^retryCount, capped at 30s
(delays in milliseconds). -/
def BackoffDelay (p : RetryPolicyModel) (retryCount : Nat) : Nat :=
  let delay := p.baseDelayMs * 2 ^ retryCount
  if delay > 30000 then 30000 else delay

/-- Model of `DefaultRetryPolicy.ShouldRetry`: a cancelled context is fatal; a net
error retries iff temporary or timeout, any other non-nil error retries;
status 429/500/502/503/504 retries. -/
def policyShouldRetry (ctxCanceled : Bool) (out : AttemptOutcome) : Bool :=
  if ctxCanceled then false
  else
    match out with
    | .failure isNet temporary timeout => if isNet then temporary || timeout else true
    | .resp status =>
      status = 429 || status = 500 || status = 502 || status = 503 || status = 504

/-- Model of `ResponseHandler.ShouldRetry` (internal/utils): the same five status
codes. -/
def responseHandlerShouldRetry (status : Nat) : Bool :=
  status = 429 || status = 500 || status = 502 || status = 503 || status = 504

/-- Model of `HTTPClient.shouldRetry` (transport): context, retry budget, then the
error- or status-based classification. -/
def clientShouldRetry (p : RetryPolicyModel) (ctxCanceled : Bool) (out : AttemptOutcome)
    (retryCount : Nat) : Bool :=
  if ctxCanceled then false
  else if retryCount ≥ p.maxRetries then false
  else
    match out with
    | .failure _ _ _ => policyShouldRetry ctxCanceled out
    | .resp status => responseHandlerShouldRetry status && policyShouldRetry ctxCanceled out

/-- The loop of `HTTPClient.doWithRetry` (transport, lines 213-254): issue the
attempt, then break when `err == nil` *or* the budget is exhausted, then
break when `shouldRetry` declines, else sleep and go around.  `backend n` is
the outcome of attempt number `n` (0-based); the result pairs the returned
outcome with the number of attempts performed.  Fuel bounds the recursion;
`doWithRetry` supplies enough for the full budget. -/
def doWithRetryLoop (backend : Nat → AttemptOutcome) (p : RetryPolicyModel) :
    Nat → Nat → AttemptOutcome × Nat
  | fuel, retryCount =>
    let out := backend retryCount
    match fuel with
    | 0 => (out, retryCount + 1)
    | fuel' + 1 =>
      if out.isNoError || retryCount ≥ p.maxRetries then (out, retryCount + 1)
      else if ! clientShouldRetry p false out retryCount then (out, retryCount + 1)
      else doWithRetryLoop backend p fuel' (retryCount + 1)

/-- Model of `HTTPClient.doWithRetry` with an uncancelled context. -/
def doWithRetry (backend : Nat → AttemptOutcome) (p : RetryPolicyModel) :
    AttemptOutcome × Nat :=
  doWithRetryLoop backend p (p.maxRetries + 1) 0

/-- The C2 scenario's backend: HTTP 503 on attempts 1 and 2, 200 on attempt 3,
always with `err == nil`. -/
def backend503 (attempt : Nat) : AttemptOutcome :=
  .resp (if attempt < 2 then 503 else 200)

/-- C2 — the claimed retry-on-503 fails on the code: `doWithRetry` breaks out
of its loop whenever `err == nil`, before ever consulting the classifier, so
the 503 response of attempt 1 is returned after a single attempt — even
though both the retry policy and the response handler classify 503 as
retryable. -/
theorem retry_503_never_retried :
    doWithRetry backend503 NewDefaultRetryPolicy = (.resp 503, 1)
    ∧ policyShouldRetry false (.resp 503) = true
    ∧ responseHandlerShouldRetry 503 = true
    ∧ clientShouldRetry NewDefaultRetryPolicy false (.resp 503) 0 = true
    ∧ BackoffDelay NewDefaultRetryPolicy 1 = 2000 := by
  refine ⟨rfl, rfl, rfl, rfl, rfl⟩

/-! ## SSE decoding and the stream reader (`StreamProcessor.processStream`,
`StreamProcessor.parseEvent`, `JSONStreamReader.Read`, transport) -/

/-- One SSE event record produced by the stream processor. -/
structure SSEEvent where
  event : String
  data : String
  id : String
  deriving DecidableEq

/-- Whitespace as `strings.TrimSpace` treats it on the ASCII inputs at hand. -/
def isSpaceChar (c : Char) : Bool :=
  c = ' ' || c = '\t' || c = '\n' || c = '\r'

/-- Model of `strings.TrimSpace`, computed on the character list so it evaluates in
the kernel. -/
def strTrim (s : String) : String :=
  String.mk (((s.data.dropWhile isSpaceChar).reverse.dropWhile isSpaceChar).reverse)

/-- Model of `strings.HasPrefix`, computed on the character lists. -/
def strHasStart (s pat : String) : Bool :=
  beginsWith s.data pat.data

/-- Model of `strings.TrimPrefix` by length, computed on the character lists. -/
def strDropN (s : String) (n : Nat) : String :=
  String.mk (s.data.drop n)

/-- Model of `StreamProcessor.parseEvent`: fold the (already trimmed) lines of one
event; multiple `data: ` lines are newline-joined (the `retry:` field, unused
by the reader, is elided). -/
def parseEvent (lines : List String) : SSEEvent :=
  lines.foldl
    (fun ev line =>
      if strHasStart line "data: " then
        let d := strDropN line 6
        if ev.data = "" then { ev with data := d }
        else { ev with data := ev.data ++ "\n" ++ d }
      else if strHasStart line "event: " then { ev with event := strDropN line 7 }
      else if strHasStart line "id: " then { ev with id := strDropN line 4 }
      else ev)
    { event := "", data := "", id := "" }

/-- The line loop of `StreamProcessor.processStream`: trim each line, a blank
line ends the current event, events with neither data nor an event name are
dropped; a trailing unterminated event is still parsed. -/
def processStreamLines : List String → List String → List SSEEvent
  | [], acc =>
    if acc ≠ [] then
      let ev := parseEvent acc.reverse
      if ev.data ≠ "" ∨ ev.event ≠ "" then [ev] else []
    else []
  | raw :: rest, acc =>
    let line := strTrim raw
    if line = "" then
      if acc ≠ [] then
        let ev := parseEvent acc.reverse
        (if ev.data ≠ "" ∨ ev.event ≠ "" then [ev] else []) ++ processStreamLines rest []
      else processStreamLines rest []
    else processStreamLines rest (line :: acc)

/-- Model of `StreamProcessor.processStream` over a list of input lines. -/
def processStream (rawLines : List String) : List SSEEvent :=
  processStreamLines rawLines []

/-- How one drained sequence of `JSONStreamReader.Read` calls ends. -/
inductive StreamTerminal where
  | eofEnd
  | streamErr (msg : String)
  deriving DecidableEq

/-- Model of `JSONStreamReader.Read` (transport, lines 483-512), iterated to
exhaustion over the processor's event queue: empty-data events are skipped, a
`[DONE]` payload ends the sequence normally (io.EOF), a payload the JSON
decoder `dec` rejects ends it with a parse error, and once the queue is
drained the scanner's error — if any — is surfaced, else io.EOF.  Each
unfolding step is one `Read` call; the first component collects the values
the caller received. -/
def jsonReadAll {α : Type} (dec : String → Option α) :
    List SSEEvent → Option String → List α × StreamTerminal
  | [], none => ([], .eofEnd)
  | [], some e => ([], .streamErr e)
  | ev :: rest, scanErr =>
    if ev.data = "" then jsonReadAll dec rest scanErr
    else if ev.data = "[DONE]" then ([], .eofEnd)
    else
      match dec ev.data with
      | some v =>
        let r := jsonReadAll dec rest scanErr
        (v :: r.1, r.2)
      | none => ([], .streamErr "failed to parse JSON")

/-- C8 — a data payload exactly `[DONE]` ends the sequence normally: whatever
well-formed events precede the sentinel are all delivered, nothing after the
sentinel is delivered, and the drain terminates with end-of-stream (io.EOF),
not an error — even when a scanner error or further events sit behind the
sentinel. -/
theorem sse_done_ends_stream_normally {α : Type} (dec : String → Option α)
    (pre tail : List SSEEvent) (scanErr : Option String) (e0 : SSEEvent)
    (h0 : e0.data = "[DONE]")
    (hdec : ∀ e ∈ pre, e.data ≠ "" → e.data ≠ "[DONE]" ∧ (dec e.data).isSome) :
    jsonReadAll dec (pre ++ e0 :: tail) scanErr
      = (pre.filterMap (fun e => if e.data = "" then none else dec e.data), .eofEnd) := by
  induction pre with
  | nil =>
    have hne : e0.data ≠ "" := by
      rw [h0]; simp
    simp [jsonReadAll, hne, h0]
  | cons e pre' ih =>
    have ih' := ih (fun x hx hne => hdec x (List.mem_cons_of_mem _ hx) hne)
    by_cases hempty : e.data = ""
    · simp [jsonReadAll, hempty, ih']
    · obtain ⟨hnd, hsome⟩ := hdec e (List.mem_cons_self _ _) hempty
      obtain ⟨v, hv⟩ := Option.isSome_iff_exists.1 hsome
      simp [jsonReadAll, hempty, hnd, hv, ih']

/-- The decoder used by the C8 witness. -/
def c8Dec (s : String) : Option Nat :=
  if s = "alpha" then some 1 else if s = "beta" then some 2 else none

/-- Witness for C8 on a concrete SSE input: the event before the sentinel is
delivered, the events after it are not, and the stream ends with EOF even
though a scanner error sits behind the sentinel. -/
theorem sse_done_ends_stream_normally_witness :
    jsonReadAll c8Dec
      (processStream ["data: alpha", "", "data: [DONE]", "", "data: beta", ""])
      (some "scan error")
      = ([1], .eofEnd) := by
  have h := sse_done_ends_stream_normally c8Dec
    [{ event := "", data := "alpha", id := "" }]
    [{ event := "", data := "beta", id := "" }]
    (some "scan error")
    { event := "", data := "[DONE]", id := "" }
    rfl
    (by decide)
  have hps : processStream ["data: alpha", "", "data: [DONE]", "", "data: beta", ""]
      = [{ event := "", data := "alpha", id := "" },
         { event := "", data := "[DONE]", id := "" },
         { event := "", data := "beta", id := "" }] := by decide
  rw [hps]
  exact h

end NewapiGo
